import Mathlib

/-!
Verification development for the precision-interval-timer alarm engine.

The definitions below are a shallow embedding of the TypeScript source:

* `App.tsx` — the catch-up scheduler state (`lastTriggeredSecond`), the per-tick
  routine `checkAlarms`, and the countdown display helper `getNextTrigger`.
* `services/beeper.ts` (final revision, also present as the unnamed companion
  file) — the `Beeper` class: tonal playback with an `AudioContext` lifecycle
  guard, the text-to-speech dispatcher with stuck-engine detection, and the
  voice-selection logic.

Machine numbers of the source are JavaScript numbers; every value the engine
manipulates here is an integer (milliseconds, whole seconds, minutes), so the
embedding uses `Int`/`Nat` with an explicit model of the JavaScript remainder
operator, whose divisor-zero case yields `NaN` (which compares unequal to
every number).
-/

namespace PrecisionTimer

/-- JavaScript remainder: the sign follows the dividend (truncated division).
For the nonnegative operands the engine actually produces, it agrees with
`Nat` remainder. -/
def jsRem (a d : Int) : Int := a - d * Int.tdiv a d

/-- Equality test `a % d === t` as JavaScript evaluates it: with divisor `0`
the remainder is `NaN`, and `NaN === t` is false for every `t`. -/
def jsRemEq (a d t : Int) : Bool :=
  if d = 0 then false else decide (jsRem a d = t)

/-- Sound presets of `SoundPreset` in beeper.ts. -/
inductive SoundPreset
  | classic | high | low | pulse | digital | ding | alarm
  | chime | buzzer | sonar | voice
deriving DecidableEq

/-- The two rule kinds of `AlarmType` in App.tsx. -/
inductive AlarmType
  | interval
  | mark
deriving DecidableEq

/-- The `AlarmRule` record of App.tsx.  `markSeconds` is optional there
(`markSeconds?: number`); absence is `none`. -/
structure AlarmRule where
  id : String
  type : AlarmType
  intervalMinutes : Nat
  markSeconds : Option Nat
  enabled : Bool
  label : String
  sound : SoundPreset
deriving DecidableEq

/-- Cycle length in seconds: `const intervalSeconds = alarm.intervalMinutes * 60`. -/
def cycleSeconds (a : AlarmRule) : Int := (a.intervalMinutes : Int) * 60

/-- Trigger decision of `checkAlarms` (App.tsx lines 120-135) for one rule at
one second-of-day `s` (`secondsSinceMidnight`).  For a mark rule the code
reads `alarm.markSeconds || 0`, which maps both `undefined` and `0` to `0`,
exactly as `Option.getD 0` does on the embedded optional field. -/
def triggered (a : AlarmRule) (s : Int) : Bool :=
  match a.type with
  | .interval => jsRemEq s (cycleSeconds a) 0
  | .mark => jsRemEq s (cycleSeconds a) ((a.markSeconds.getD 0 : Nat) : Int)

/-- Countdown computation of `getNextTrigger` (App.tsx lines 143-169): the
numeric `secondsToWait` value the function formats for display (it prints
"NOW" exactly when this value is `0`). -/
def getNextTrigger (a : AlarmRule) (s : Int) : Int :=
  let intervalSeconds := cycleSeconds a
  match a.type with
  | .interval =>
      let w := intervalSeconds - jsRem s intervalSeconds
      if w = intervalSeconds then 0 else w
  | .mark =>
      let m : Int := ((a.markSeconds.getD 0 : Nat) : Int)
      let p := jsRem s intervalSeconds
      if p < m then m - p else (intervalSeconds - p) + m

/-- Alert handed to `beeper.play(alarm.sound, globalVolume)` on a fire. -/
structure AlertRequest where
  sound : SoundPreset
  volume : ℚ
deriving DecidableEq

/-- Scheduler state: the `lastTriggeredSecond` ref of App.tsx (line 78). -/
structure SchedState where
  lastTriggeredSecond : Int
deriving DecidableEq

/-- Initial scheduler state: `useRef<number>(-1)`. -/
def initState : SchedState := { lastTriggeredSecond := -1 }

/-- One clock sample: the wall-clock time `now.getTime()` in milliseconds and
the host-calendar local midnight of that same day (`midnight.getTime()`,
obtained in the source via `setHours(0, 0, 0, 0)`), also in milliseconds. -/
structure TickInput where
  nowMs : Int
  midnightMs : Int
deriving DecidableEq

/-- Absolute current second of a sample: `Math.floor(now.getTime() / 1000)`. -/
def currentSecondOf (t : TickInput) : Int := Int.fdiv t.nowMs 1000

/-- Second-of-day of a sample:
`Math.floor((now.getTime() - midnight.getTime()) / 1000)`. -/
def secondOfDay (t : TickInput) : Int := Int.fdiv (t.nowMs - t.midnightMs) 1000

/-- Outcome of one `checkAlarms` call: the new scheduler state, the absolute
second that was evaluated on this call (`none` when the call returned early
because the second was already processed), the enabled rules whose trigger
condition matched on that second, and the alert requests actually dispatched
(empty while muted, since the dispatch is guarded by `triggered && !isMuted`). -/
structure TickResult where
  state : SchedState
  evaluatedSecond : Option Int
  firedRules : List AlarmRule
  alerts : List AlertRequest
deriving DecidableEq

/-- The per-tick routine `checkAlarms` of App.tsx (lines 110-141), as the
source writes it: dedup on the absolute current second, then one evaluation
pass over the rule list at the current second-of-day.  There is no loop over
missed seconds in the source. -/
def checkAlarms (alarms : List AlarmRule) (isMuted : Bool) (globalVolume : ℚ)
    (st : SchedState) (t : TickInput) : TickResult :=
  let currentSecond := currentSecondOf t
  if currentSecond = st.lastTriggeredSecond then
    { state := st, evaluatedSecond := none, firedRules := [], alerts := [] }
  else
    let s := secondOfDay t
    { state := { lastTriggeredSecond := currentSecond },
      evaluatedSecond := some currentSecond,
      firedRules := alarms.filter fun a => a.enabled && triggered a s,
      alerts := alarms.filterMap fun a =>
        if a.enabled && triggered a s && !isMuted
        then some { sound := a.sound, volume := globalVolume } else none }

/-- Absolute seconds evaluated over a run of consecutive `checkAlarms` calls,
threading the scheduler state through the run. -/
def runTicks (alarms : List AlarmRule) (isMuted : Bool) (globalVolume : ℚ)
    (st : SchedState) : List TickInput → List Int
  | [] => []
  | t :: ts =>
      let r := checkAlarms alarms isMuted globalVolume st t
      r.evaluatedSecond.toList ++ runTicks alarms isMuted globalVolume r.state ts

/-! ### Alert Dispatcher: the `Beeper` class (final revision) -/

/-- Waveform type passed to `OscillatorNode.type`. -/
inductive Wave
  | sine | square | sawtooth | triangle
deriving DecidableEq

/-- One scheduled tone segment of a preset: frequency (Hz), duration (s),
waveform, the per-segment peak volume from the preset table, and the
`setTimeout` delay (ms) after which the segment is scheduled (`0` for the
segments scheduled synchronously).  The per-segment volume is emitted through
an outer gain node whose gain is the global volume factor, so the effective
peak amplitude is `volume * globalVolume`. -/
structure ToneSeg where
  freq : ℚ
  duration : ℚ
  wave : Wave
  volume : ℚ
  delayMs : Nat
deriving DecidableEq

/-- The tone table of `Beeper.play`, one entry per `switch` case.  The `voice`
preset schedules no tones itself: `play` delegates it to `speak` before any
audio setup. -/
def presetTones : SoundPreset → List ToneSeg
  | .ding =>
      [{ freq := 1500, duration := 1/2, wave := .sine, volume := 1/5, delayMs := 0 },
       { freq := 2200, duration := 3/10, wave := .sine, volume := 1/10, delayMs := 0 }]
  | .alarm =>
      [{ freq := 660, duration := 1/10, wave := .sawtooth, volume := 3/20, delayMs := 0 },
       { freq := 880, duration := 1/10, wave := .sawtooth, volume := 3/20, delayMs := 150 },
       { freq := 660, duration := 1/10, wave := .sawtooth, volume := 3/20, delayMs := 300 }]
  | .high =>
      [{ freq := 1760, duration := 1/10, wave := .sine, volume := 1/10, delayMs := 0 }]
  | .low =>
      [{ freq := 440, duration := 1/5, wave := .sine, volume := 1/10, delayMs := 0 }]
  | .pulse =>
      [{ freq := 880, duration := 1/20, wave := .square, volume := 1/10, delayMs := 0 },
       { freq := 880, duration := 1/20, wave := .square, volume := 1/10, delayMs := 100 }]
  | .digital =>
      [{ freq := 1200, duration := 3/20, wave := .triangle, volume := 1/10, delayMs := 0 }]
  | .chime =>
      [{ freq := 20930/20, duration := 2/5, wave := .sine, volume := 1/5, delayMs := 0 },
       { freq := 131851/100, duration := 3/5, wave := .sine, volume := 1/5, delayMs := 200 }]
  | .buzzer =>
      [{ freq := 150, duration := 3/10, wave := .sawtooth, volume := 3/10, delayMs := 0 },
       { freq := 150, duration := 2/5, wave := .sawtooth, volume := 3/10, delayMs := 350 }]
  | .sonar =>
      [{ freq := 1200, duration := 3/2, wave := .sine, volume := 3/10, delayMs := 0 }]
  | .voice => []
  | .classic =>
      [{ freq := 880, duration := 3/20, wave := .square, volume := 1/10, delayMs := 0 }]

/-- Lifecycle state of the `AudioContext` handle. -/
inductive CtxState
  | running | suspended | closed
deriving DecidableEq

/-- Output-device state owned by the `Beeper`: the `AudioContext` (or `none`
before construction, or when construction threw) and whether the keepalive
oscillator is installed. -/
structure BeeperState where
  audioCtx : Option CtxState
  keepaliveOn : Bool
deriving DecidableEq

/-- `Beeper.init`: recreate the context when missing or closed (stopping the
keepalive first), then request a resume when suspended.  `resume()` is
asynchronous, so at the moment `init` returns the state of a suspended
context is still `suspended`; `fresh` is the state of a newly constructed
`AudioContext` (`none` when the constructor throws). -/
def initCtx (st : BeeperState) (fresh : Option CtxState) : BeeperState :=
  if st.audioCtx = none ∨ st.audioCtx = some .closed then
    { audioCtx := fresh, keepaliveOn := false }
  else st

/-- `Beeper.startKeepalive`: installs the inaudible oscillator only when the
context is running and no keepalive is installed yet. -/
def startKeepalive (st : BeeperState) : BeeperState :=
  if st.audioCtx = some .running ∧ st.keepaliveOn = false then
    { st with keepaliveOn := true }
  else st

/-- `Beeper.play` for the tonal path: after the mandatory `init`, the guard
`if (!this.audioCtx || this.audioCtx.state !== running) return;` drops the
request without creating any audio node, so nothing is queued to sound later.
Otherwise the segments of the preset table are scheduled, each with its peak
volume scaled by the global volume factor, and the keepalive is started after
the whole graph is set up.  The `voice` preset never reaches this code: the
function forwards it to `speak` (modelled separately by `speakDispatch` and
`bestVoice`) and schedules no tone segments. -/
def play (st : BeeperState) (fresh : Option CtxState) (preset : SoundPreset)
    (globalVolume : ℚ) : BeeperState × List ToneSeg :=
  if preset = .voice then (st, [])
  else
    let st1 := initCtx st fresh
    if st1.audioCtx = some .running then
      (startKeepalive st1,
       (presetTones preset).map fun seg => { seg with volume := seg.volume * globalVolume })
    else (st1, [])

/-! ### Speech dispatcher -/

/-- Speech-engine state read and written by `Beeper.speak`: the busy flag the
engine reports (`window.speechSynthesis.speaking`) and the timestamp of the
previous `speak` call (`lastSpeakCallTime`, `0` initially). -/
structure SpeechState where
  speaking : Bool
  lastSpeakCallTime : Int
deriving DecidableEq

/-- What `Beeper.speak` does with the prepared utterance. -/
inductive SpeakAction
  | speakNow
  | cancelThenRetry (delayMs : Nat)
deriving DecidableEq

/-- Stuck-engine threshold of `Beeper.speak`: 12 seconds in milliseconds. -/
def stuckThresholdMs : Int := 12000

/-- The stuck-detection step of `Beeper.speak` (final revision): record the
call time, and only when the engine reports busy AND more than the threshold
elapsed since the previous call, cancel and retry the utterance once after a
50 ms delay; in every other case speak immediately without cancelling. -/
def speakDispatch (sp : SpeechState) (nowMs : Int) : SpeechState × SpeakAction :=
  let timeSinceLastCall := nowMs - sp.lastSpeakCallTime
  let sp1 : SpeechState := { sp with lastSpeakCallTime := nowMs }
  if sp.speaking && decide (timeSinceLastCall > stuckThresholdMs) then
    (sp1, .cancelThenRetry 50)
  else
    (sp1, .speakNow)

/-! ### Voice selection -/

/-- The fields of `SpeechSynthesisVoice` the selection logic reads. -/
structure VoiceInfo where
  lang : String
  name : String
  localService : Bool
deriving DecidableEq

/-- Substring test over character lists, modelling `String.prototype.includes`. -/
def hasSubstr (hay need : List Char) : Bool :=
  match hay with
  | [] => need.isEmpty
  | _ :: t => need.isPrefixOf hay || hasSubstr t need

/-- Models `v.name.includes(sub)`. -/
def strIncludes (s sub : String) : Bool := hasSubstr s.toList sub.toList

/-- Models `v.lang.startsWith(pre)`. -/
def strStarts (s pre : String) : Bool := pre.toList.isPrefixOf s.toList

/-- English-language test `v.lang.startsWith(en)`. -/
def isEnglish (v : VoiceInfo) : Bool := strStarts v.lang ("en")

/-- Known high-quality local voice names the selection singles out. -/
def preferredNames : List String := ["David", "Zira", "Samantha"]

/-- Name test of the first selection tier. -/
def hasPreferredName (v : VoiceInfo) : Bool :=
  preferredNames.any fun n => strIncludes v.name n

/-- Voice selection of `Beeper.speak` (final revision): first an English local
voice with a known high-quality name, then any English local voice, then any
English voice, else none. -/
def bestVoice (voices : List VoiceInfo) : Option VoiceInfo :=
  ((voices.find? fun v => isEnglish v && v.localService && hasPreferredName v).orElse
    fun _ => voices.find? fun v => isEnglish v && v.localService).orElse
    fun _ => voices.find? fun v => isEnglish v

/-! ### Concrete rules and inputs used by witnesses and counterexamples -/

/-- Mark rule firing at 41 s of every 1-minute cycle (used for the catch-up
gap analysis). -/
def gapRule : AlarmRule :=
  { id := "g1", type := .mark, intervalMinutes := 1, markSeconds := some 41,
    enabled := true, label := "", sound := .classic }

/-- Mark rule firing at 4 m of every 5-minute cycle, the example of the spec. -/
def markRule240 : AlarmRule :=
  { id := "m1", type := .mark, intervalMinutes := 5, markSeconds := some 240,
    enabled := true, label := "", sound := .pulse }

/-- Interval rule with a 5-minute cycle, the example of the spec. -/
def intervalRule5 : AlarmRule :=
  { id := "i1", type := .interval, intervalMinutes := 5, markSeconds := none,
    enabled := true, label := "", sound := .ding }

/-- Mark rule with the optional mark position absent. -/
def bareMarkRule : AlarmRule :=
  { id := "b1", type := .mark, intervalMinutes := 5, markSeconds := none,
    enabled := true, label := "", sound := .chime }

/-! ### Arithmetic bridge lemmas -/

theorem jsRem_natCast (a d : ℕ) : jsRem (a : ℤ) (d : ℤ) = ((a % d : ℕ) : ℤ) := by
  unfold jsRem
  rw [Int.tdiv_eq_ediv (by omega) (by omega), ← Int.emod_def]
  norm_cast

theorem jsRem_eq_emod (a d : ℤ) (ha : 0 ≤ a) (hd : 0 ≤ d) : jsRem a d = a % d := by
  unfold jsRem
  rw [Int.tdiv_eq_ediv ha hd, Int.emod_def]

theorem jsRem_bounds (a d : ℤ) (ha : 0 ≤ a) (hd : 0 < d) :
    0 ≤ jsRem a d ∧ jsRem a d < d := by
  rw [jsRem_eq_emod a d ha hd.le]
  exact ⟨Int.emod_nonneg a (by omega), Int.emod_lt_of_pos a hd⟩

theorem cycleSeconds_pos (a : AlarmRule) (h : 0 < a.intervalMinutes) :
    0 < cycleSeconds a := by
  unfold cycleSeconds
  omega

theorem cycleSeconds_natCast (a : AlarmRule) :
    cycleSeconds a = ((a.intervalMinutes * 60 : ℕ) : ℤ) := by
  unfold cycleSeconds
  push_cast
  ring

/-- The trigger test at a nonnegative cycle position, stated over `Nat`. -/
theorem jsRemEq_natCast (s d t : ℕ) (hd : d ≠ 0) :
    jsRemEq (s : ℤ) (d : ℤ) (t : ℤ) = decide (s % d = t) := by
  unfold jsRemEq
  rw [if_neg (by exact_mod_cast hd), jsRem_natCast]
  simp only [decide_eq_decide, Nat.cast_inj]

/-! ### Scheduler step lemmas -/

theorem checkAlarms_evaluated_of_eq (alarms : List AlarmRule) (m : Bool) (v : ℚ)
    (st : SchedState) (t : TickInput) (h : currentSecondOf t = st.lastTriggeredSecond) :
    (checkAlarms alarms m v st t).evaluatedSecond = none := by
  unfold checkAlarms
  rw [if_pos h]

theorem checkAlarms_evaluated_of_ne (alarms : List AlarmRule) (m : Bool) (v : ℚ)
    (st : SchedState) (t : TickInput) (h : ¬ currentSecondOf t = st.lastTriggeredSecond) :
    (checkAlarms alarms m v st t).evaluatedSecond = some (currentSecondOf t) := by
  unfold checkAlarms
  rw [if_neg h]

theorem checkAlarms_state_of_eq (alarms : List AlarmRule) (m : Bool) (v : ℚ)
    (st : SchedState) (t : TickInput) (h : currentSecondOf t = st.lastTriggeredSecond) :
    (checkAlarms alarms m v st t).state = st := by
  unfold checkAlarms
  rw [if_pos h]

theorem checkAlarms_state_of_ne (alarms : List AlarmRule) (m : Bool) (v : ℚ)
    (st : SchedState) (t : TickInput) (h : ¬ currentSecondOf t = st.lastTriggeredSecond) :
    (checkAlarms alarms m v st t).state = { lastTriggeredSecond := currentSecondOf t } := by
  unfold checkAlarms
  rw [if_neg h]

theorem checkAlarms_state (alarms : List AlarmRule) (m : Bool) (v : ℚ)
    (st : SchedState) (t : TickInput) :
    (checkAlarms alarms m v st t).state.lastTriggeredSecond = currentSecondOf t := by
  by_cases h : currentSecondOf t = st.lastTriggeredSecond
  · rw [checkAlarms_state_of_eq alarms m v st t h]
    exact h.symm
  · rw [checkAlarms_state_of_ne alarms m v st t h]

theorem currentSecondOf_mono {t u : TickInput} (h : t.nowMs ≤ u.nowMs) :
    currentSecondOf t ≤ currentSecondOf u := by
  unfold currentSecondOf
  rw [Int.fdiv_eq_ediv _ (by omega), Int.fdiv_eq_ediv _ (by omega)]
  exact Int.ediv_le_ediv (by omega) h

/-- Every second a run evaluates from a cursor at `l` is strictly above `l`,
provided the samples are non-decreasing and never map below `l`. -/
theorem runTicks_lt_of_le (alarms : List AlarmRule) (m : Bool) (v : ℚ)
    (l : ℤ) (ticks : List TickInput)
    (hsorted : (ticks.map currentSecondOf).Sorted (· ≤ ·))
    (hge : ∀ c ∈ ticks.map currentSecondOf, l ≤ c) :
    ∀ x ∈ runTicks alarms m v { lastTriggeredSecond := l } ticks, l < x := by
  induction ticks generalizing l with
  | nil => intro x hx; simp [runTicks] at hx
  | cons t ts ih =>
      rw [List.map_cons, List.sorted_cons] at hsorted
      obtain ⟨hc, hs'⟩ := hsorted
      have hlc : l ≤ currentSecondOf t := hge _ (by simp)
      intro x hx
      by_cases h : currentSecondOf t = l
      · rw [runTicks, checkAlarms_evaluated_of_eq alarms m v _ t h,
          checkAlarms_state_of_eq alarms m v _ t h] at hx
        simp only [Option.toList_none, List.nil_append] at hx
        exact ih l hs' (fun c hcmem => h ▸ hc c hcmem) x hx
      · rw [runTicks, checkAlarms_evaluated_of_ne alarms m v _ t h,
          checkAlarms_state_of_ne alarms m v _ t h] at hx
        simp only [Option.toList_some, List.cons_append, List.nil_append,
          List.mem_cons] at hx
        rcases hx with rfl | hx
        · omega
        · have := ih (currentSecondOf t) hs' hc x hx
          omega

/-- Over non-decreasing samples the evaluated seconds are strictly increasing. -/
theorem runTicks_sorted (alarms : List AlarmRule) (m : Bool) (v : ℚ)
    (st : SchedState) (ticks : List TickInput)
    (hsorted : (ticks.map currentSecondOf).Sorted (· ≤ ·)) :
    (runTicks alarms m v st ticks).Sorted (· < ·) := by
  induction ticks generalizing st with
  | nil => simp [runTicks]
  | cons t ts ih =>
      rw [List.map_cons, List.sorted_cons] at hsorted
      obtain ⟨hc, hs'⟩ := hsorted
      by_cases h : currentSecondOf t = st.lastTriggeredSecond
      · rw [runTicks, checkAlarms_evaluated_of_eq alarms m v st t h,
          checkAlarms_state_of_eq alarms m v st t h]
        simpa using ih st hs'
      · rw [runTicks, checkAlarms_evaluated_of_ne alarms m v st t h,
          checkAlarms_state_of_ne alarms m v st t h]
        simp only [Option.toList_some, List.cons_append, List.nil_append,
          List.sorted_cons]
        exact ⟨runTicks_lt_of_le alarms m v _ ts hs' hc, ih _ hs'⟩

/-! ### Trigger evaluator lemmas -/

theorem triggered_interval (a : AlarmRule) (s : ℕ) (hty : a.type = .interval)
    (hmin : 0 < a.intervalMinutes) :
    triggered a (s : ℤ) = decide (s % (a.intervalMinutes * 60) = 0) := by
  have hd : a.intervalMinutes * 60 ≠ 0 := by omega
  simp only [triggered, hty, cycleSeconds_natCast]
  have h := jsRemEq_natCast s (a.intervalMinutes * 60) 0 hd
  simpa using h

theorem triggered_mark (a : AlarmRule) (s : ℕ) (hty : a.type = .mark)
    (hmin : 0 < a.intervalMinutes) :
    triggered a (s : ℤ) = decide (s % (a.intervalMinutes * 60) = a.markSeconds.getD 0) := by
  have hd : a.intervalMinutes * 60 ≠ 0 := by omega
  simp only [triggered, hty, cycleSeconds_natCast]
  exact jsRemEq_natCast s (a.intervalMinutes * 60) (a.markSeconds.getD 0) hd

/-- Claim C3.  Trigger Evaluator correctness: for every enabled rule and every
second-of-day `s`, with positive cycle length as precondition, an Interval
rule fires iff `s` is a multiple of `cycleSeconds = intervalMinutes * 60`, and
a Mark rule with offset `m` fires iff `s` is congruent to `m` modulo the cycle
length. -/
theorem trigger_evaluator_correct (a : AlarmRule) (s : ℕ)
    (hmin : 0 < a.intervalMinutes) (_hen : a.enabled = true) :
    (a.type = .interval →
      (triggered a (s : ℤ) = true ↔ s % (a.intervalMinutes * 60) = 0)) ∧
    (∀ m : ℕ, a.type = .mark → a.markSeconds = some m →
      (triggered a (s : ℤ) = true ↔ s % (a.intervalMinutes * 60) = m)) := by
  constructor
  · intro hty
    rw [triggered_interval a s hty hmin]
    simp
  · intro m hty hm
    rw [triggered_mark a s hty hmin, hm]
    simp

/-- Witness for C3: the 5-minute interval rule of the spec example fires at
second-of-day 300. -/
theorem trigger_evaluator_correct_witness :
    0 < intervalRule5.intervalMinutes ∧ intervalRule5.enabled = true ∧
    ((intervalRule5.type = .interval →
        (triggered intervalRule5 ((300 : ℕ) : ℤ) = true ↔
          300 % (intervalRule5.intervalMinutes * 60) = 0)) ∧
     (∀ m : ℕ, intervalRule5.type = .mark → intervalRule5.markSeconds = some m →
        (triggered intervalRule5 ((300 : ℕ) : ℤ) = true ↔
          300 % (intervalRule5.intervalMinutes * 60) = m))) :=
  ⟨by decide, by decide, trigger_evaluator_correct intervalRule5 300 (by decide) (by decide)⟩

/-- Claim C10 (implicit).  A Mark rule whose optional `markSeconds` field is
absent is evaluated with offset 0: it fires iff the second-of-day is a
multiple of the cycle length, identically to an Interval rule with the same
`intervalMinutes` in the trigger evaluation. -/
theorem mark_default_offset (a : AlarmRule) (s : ℕ)
    (hty : a.type = .mark) (hnone : a.markSeconds = none)
    (hmin : 0 < a.intervalMinutes) :
    (triggered a (s : ℤ) = true ↔ s % (a.intervalMinutes * 60) = 0) ∧
    (∀ b : AlarmRule, b.type = .interval → b.intervalMinutes = a.intervalMinutes →
      triggered a (s : ℤ) = triggered b (s : ℤ)) := by
  constructor
  · rw [triggered_mark a s hty hmin, hnone]
    simp
  · intro b htyb hminb
    rw [triggered_mark a s hty hmin, hnone,
      triggered_interval b s htyb (by omega), hminb]
    simp

/-- Witness for C10: a bare mark rule with a 5-minute cycle behaves like the
5-minute interval rule at second-of-day 300. -/
theorem mark_default_offset_witness :
    bareMarkRule.type = AlarmType.mark ∧ bareMarkRule.markSeconds = none ∧
    0 < bareMarkRule.intervalMinutes ∧
    ((triggered bareMarkRule ((300 : ℕ) : ℤ) = true ↔
        300 % (bareMarkRule.intervalMinutes * 60) = 0) ∧
     (∀ b : AlarmRule, b.type = .interval → b.intervalMinutes = bareMarkRule.intervalMinutes →
        triggered bareMarkRule ((300 : ℕ) : ℤ) = triggered b ((300 : ℕ) : ℤ))) :=
  ⟨by decide, by decide, by decide,
   mark_default_offset bareMarkRule 300 (by decide) (by decide) (by decide)⟩

/-- Counterexample for C4: the Mark rule at 4 m of a 5-minute cycle fires at
cycle position 240, yet the countdown computation returns the full cycle
length 300, not 0, at that very second. -/
theorem next_trigger_zero_counterexample :
    triggered markRule240 240 = true ∧ getNextTrigger markRule240 240 = 300 ∧
    ¬ getNextTrigger markRule240 240 = 0 := by
  decide

/-- Claim C4, amended.  The countdown computation returns a nonnegative
integer; for an Interval rule it is 0 exactly when the rule fires on the
current second; for a Mark rule it is always strictly positive — in
particular, when the current position in the cycle equals the mark offset the
result is the full `cycleSeconds`, the distance to the next firing second,
not 0. -/
theorem next_trigger_amended (a : AlarmRule) (s : ℤ)
    (hmin : 0 < a.intervalMinutes) (hs : 0 ≤ s) :
    0 ≤ getNextTrigger a s ∧
    (a.type = .interval → (getNextTrigger a s = 0 ↔ triggered a s = true)) ∧
    (a.type = .mark → 0 < getNextTrigger a s) ∧
    (a.type = .mark →
      jsRem s (cycleSeconds a) = ((a.markSeconds.getD 0 : ℕ) : ℤ) →
      getNextTrigger a s = cycleSeconds a) := by
  have hcyc := cycleSeconds_pos a hmin
  obtain ⟨hp0, hplt⟩ := jsRem_bounds s (cycleSeconds a) hs hcyc
  cases hty : a.type with
  | interval =>
      refine ⟨?_, fun _ => ?_, fun hmk => ?_, fun hmk => ?_⟩
      · simp only [getNextTrigger, hty]
        split_ifs <;> omega
      · simp only [getNextTrigger, triggered, hty, jsRemEq, if_neg hcyc.ne',
          decide_eq_true_eq]
        split_ifs <;> omega
      · cases hmk
      · cases hmk
  | mark =>
      refine ⟨?_, fun hin => ?_, fun _ => ?_, fun _ hpm => ?_⟩
      · simp only [getNextTrigger, hty]
        split_ifs <;> omega
      · cases hin
      · simp only [getNextTrigger, hty]
        split_ifs <;> omega
      · simp only [getNextTrigger, hty]
        rw [hpm]
        split_ifs <;> omega

/-- Witness for C4 (amended), at the spec example: Mark rule at 4 m of a
5-minute cycle, current cycle position 250. -/
theorem next_trigger_amended_witness :
    0 < markRule240.intervalMinutes ∧ (0 : ℤ) ≤ 250 ∧
    (0 ≤ getNextTrigger markRule240 250 ∧
     (markRule240.type = .interval →
        (getNextTrigger markRule240 250 = 0 ↔ triggered markRule240 250 = true)) ∧
     (markRule240.type = .mark → 0 < getNextTrigger markRule240 250) ∧
     (markRule240.type = .mark →
        jsRem 250 (cycleSeconds markRule240) = ((markRule240.markSeconds.getD 0 : ℕ) : ℤ) →
        getNextTrigger markRule240 250 = cycleSeconds markRule240)) :=
  ⟨by decide, by decide, next_trigger_amended markRule240 250 (by decide) (by decide)⟩

/-! ### Scheduler claims -/

/-- Claim C1, evaluated at a failing input.  With the cursor at second 100, a
tick whose current second is 102 (gap d = 2, within any catch-up window)
evaluates only second 102: second 101 is never fed to the evaluator, although
the active mark rule would have fired there (41 s of each minute), so no
alert is produced for it.  `checkAlarms` has no loop over missed seconds,
contradicting the catch-up behaviour the repository README and the spec
describe. -/
theorem catchup_gap_skips_second :
    runTicks [gapRule] false 1 { lastTriggeredSecond := 100 }
        [{ nowMs := 102000, midnightMs := 0 }] = [102] ∧
    triggered gapRule 101 = true ∧
    (checkAlarms [gapRule] false 1 { lastTriggeredSecond := 100 }
        { nowMs := 102000, midnightMs := 0 }).alerts = [] := by
  decide

/-- Claim C2.  No duplicate evaluation: over any run of ticks whose wall-clock
timestamps are monotonically non-decreasing, starting from the initial state,
the absolute seconds evaluated by `checkAlarms` are pairwise distinct — no
second is ever processed twice. -/
theorem no_duplicate_evaluation (alarms : List AlarmRule) (isMuted : Bool)
    (globalVolume : ℚ) (ticks : List TickInput)
    (h : (ticks.map TickInput.nowMs).Sorted (· ≤ ·)) :
    (runTicks alarms isMuted globalVolume initState ticks).Nodup := by
  have hsec : (ticks.map currentSecondOf).Sorted (· ≤ ·) := by
    rw [List.Sorted, List.pairwise_map] at h ⊢
    exact h.imp fun hab => currentSecondOf_mono hab
  exact (runTicks_sorted alarms isMuted globalVolume initState ticks hsec).nodup

/-- Witness for C2: three samples inside two distinct seconds evaluate the
two seconds once each. -/
theorem no_duplicate_evaluation_witness :
    (([{ nowMs := 1000, midnightMs := 0 }, { nowMs := 1500, midnightMs := 0 },
       { nowMs := 2000, midnightMs := 0 }] : List TickInput).map TickInput.nowMs).Sorted
      (· ≤ ·) ∧
    (runTicks [intervalRule5] false 1 initState
      [{ nowMs := 1000, midnightMs := 0 }, { nowMs := 1500, midnightMs := 0 },
       { nowMs := 2000, midnightMs := 0 }]).Nodup :=
  ⟨by decide, no_duplicate_evaluation [intervalRule5] false 1
    [{ nowMs := 1000, midnightMs := 0 }, { nowMs := 1500, midnightMs := 0 },
     { nowMs := 2000, midnightMs := 0 }] (by decide)⟩

/-- Claim C5.  Startup boundary: from the initial state (cursor at the unset
sentinel -1), the very first tick evaluates exactly the current second and
nothing earlier, however much wall-clock time passed before the timer
started. -/
theorem startup_boundary (alarms : List AlarmRule) (isMuted : Bool)
    (globalVolume : ℚ) (t : TickInput) (h : 0 ≤ t.nowMs) :
    runTicks alarms isMuted globalVolume initState [t] = [currentSecondOf t] := by
  have hcur : 0 ≤ currentSecondOf t := Int.fdiv_nonneg h (by omega)
  have hne : ¬ currentSecondOf t = initState.lastTriggeredSecond := by
    simp only [initState]
    omega
  rw [runTicks, checkAlarms_evaluated_of_ne alarms isMuted globalVolume initState t hne,
    runTicks]
  simp

/-- Witness for C5: a first tick seven hours into the day evaluates only its
own second. -/
theorem startup_boundary_witness :
    (0 : ℤ) ≤ (25200400 : ℤ) ∧
    runTicks [intervalRule5] false 1 initState
      [{ nowMs := 25200400, midnightMs := 0 }] =
      [currentSecondOf { nowMs := 25200400, midnightMs := 0 }] :=
  ⟨by decide, startup_boundary [intervalRule5] false 1
    { nowMs := 25200400, midnightMs := 0 } (by decide)⟩

/-- Claim C9 (implicit).  Mute suppression: a tick processed while muted still
advances the cursor and evaluates every enabled rule exactly as an unmuted
tick would (same new state, same evaluated second, same matched rules), but
dispatches no alert; and once the cursor has advanced, no forward
(non-decreasing) continuation of the run — muted or not — ever evaluates the
suppressed second again. -/
theorem mute_suppression (alarms : List AlarmRule) (globalVolume : ℚ)
    (st : SchedState) (t : TickInput)
    (h : ¬ currentSecondOf t = st.lastTriggeredSecond) :
    (checkAlarms alarms true globalVolume st t).alerts = [] ∧
    (checkAlarms alarms true globalVolume st t).state =
      { lastTriggeredSecond := currentSecondOf t } ∧
    (checkAlarms alarms true globalVolume st t).evaluatedSecond =
      some (currentSecondOf t) ∧
    (checkAlarms alarms true globalVolume st t).firedRules =
      (checkAlarms alarms false globalVolume st t).firedRules ∧
    (∀ (isMuted : Bool) (ts : List TickInput),
      (ts.map currentSecondOf).Sorted (· ≤ ·) →
      (∀ c ∈ ts.map currentSecondOf, currentSecondOf t ≤ c) →
      currentSecondOf t ∉
        runTicks alarms isMuted globalVolume
          (checkAlarms alarms true globalVolume st t).state ts) := by
  refine ⟨?_, checkAlarms_state_of_ne alarms true globalVolume st t h,
    checkAlarms_evaluated_of_ne alarms true globalVolume st t h, ?_, ?_⟩
  · unfold checkAlarms
    rw [if_neg h]
    simp
  · unfold checkAlarms
    rw [if_neg h, if_neg h]
  · intro isMuted ts hsorted hge hmem
    rw [checkAlarms_state_of_ne alarms true globalVolume st t h] at hmem
    exact absurd rfl
      (runTicks_lt_of_le alarms isMuted globalVolume _ ts hsorted hge _ hmem).ne

/-- Witness for C9: a muted tick at second 300 (where the 5-minute interval
rule fires) dispatches nothing, advances the cursor, and second 300 is never
evaluated again on a later unmuted tick. -/
theorem mute_suppression_witness :
    ¬ currentSecondOf { nowMs := 300400, midnightMs := 0 } =
        ({ lastTriggeredSecond := 299 } : SchedState).lastTriggeredSecond ∧
    ((checkAlarms [intervalRule5] true 1 { lastTriggeredSecond := 299 }
        { nowMs := 300400, midnightMs := 0 }).alerts = [] ∧
     (checkAlarms [intervalRule5] true 1 { lastTriggeredSecond := 299 }
        { nowMs := 300400, midnightMs := 0 }).state =
        { lastTriggeredSecond := currentSecondOf { nowMs := 300400, midnightMs := 0 } } ∧
     (checkAlarms [intervalRule5] true 1 { lastTriggeredSecond := 299 }
        { nowMs := 300400, midnightMs := 0 }).evaluatedSecond =
        some (currentSecondOf { nowMs := 300400, midnightMs := 0 }) ∧
     (checkAlarms [intervalRule5] true 1 { lastTriggeredSecond := 299 }
        { nowMs := 300400, midnightMs := 0 }).firedRules =
       (checkAlarms [intervalRule5] false 1 { lastTriggeredSecond := 299 }
        { nowMs := 300400, midnightMs := 0 }).firedRules ∧
     (∀ (isMuted : Bool) (ts : List TickInput),
        (ts.map currentSecondOf).Sorted (· ≤ ·) →
        (∀ c ∈ ts.map currentSecondOf,
          currentSecondOf { nowMs := 300400, midnightMs := 0 } ≤ c) →
        currentSecondOf { nowMs := 300400, midnightMs := 0 } ∉
          runTicks [intervalRule5] isMuted 1
            (checkAlarms [intervalRule5] true 1 { lastTriggeredSecond := 299 }
              { nowMs := 300400, midnightMs := 0 }).state ts)) :=
  ⟨by decide, mute_suppression [intervalRule5] 1 { lastTriggeredSecond := 299 }
    { nowMs := 300400, midnightMs := 0 } (by decide)⟩

/-! ### Alert Dispatcher claims -/

/-- Claim C6.  Suspended-device drop: a tonal alert requested while the
output device is not running — the context is suspended, or a recreation was
needed and construction did not yield a running context (including outright
construction failure) — schedules no tone segment at all, immediate or
delayed, so nothing can sound later when the device resumes. -/
theorem suspended_device_drop (st : BeeperState) (fresh : Option CtxState)
    (preset : SoundPreset) (globalVolume : ℚ)
    (hp : ¬ preset = SoundPreset.voice)
    (h : st.audioCtx = some CtxState.suspended ∨
      ((st.audioCtx = none ∨ st.audioCtx = some CtxState.closed) ∧
        ¬ fresh = some CtxState.running)) :
    (play st fresh preset globalVolume).2 = [] := by
  have hctx : ¬ (initCtx st fresh).audioCtx = some CtxState.running := by
    unfold initCtx
    rcases h with hsusp | ⟨hre, hfresh⟩
    · rw [if_neg (by simp [hsusp])]
      simp [hsusp]
    · rw [if_pos hre]
      simpa using hfresh
  simp [play, hp, hctx]

/-- Witness for C6: a classic beep requested on a suspended context is
dropped. -/
theorem suspended_device_drop_witness :
    ¬ SoundPreset.classic = SoundPreset.voice ∧
    (({ audioCtx := some CtxState.suspended, keepaliveOn := false } : BeeperState).audioCtx
        = some CtxState.suspended ∨
      ((({ audioCtx := some CtxState.suspended, keepaliveOn := false } : BeeperState).audioCtx
          = none ∨
        ({ audioCtx := some CtxState.suspended, keepaliveOn := false } : BeeperState).audioCtx
          = some CtxState.closed) ∧
        ¬ (some CtxState.running : Option CtxState) = some CtxState.running)) ∧
    (play { audioCtx := some CtxState.suspended, keepaliveOn := false }
      (some CtxState.running) SoundPreset.classic 1).2 = [] :=
  ⟨by decide, by decide,
   suspended_device_drop { audioCtx := some CtxState.suspended, keepaliveOn := false }
     (some CtxState.running) SoundPreset.classic 1 (by decide) (Or.inl rfl)⟩

/-- Claim C7.  Stuck-speech recovery: the dispatcher cancels and retries the
utterance once after a 50 ms delay exactly when the engine reports busy and
more than 12 s elapsed since the previous speech request; in every other case
it speaks immediately without cancelling.  The request timestamp is recorded
on every call. -/
theorem stuck_speech_recovery (sp : SpeechState) (nowMs : ℤ) :
    ((speakDispatch sp nowMs).2 = SpeakAction.cancelThenRetry 50 ↔
      (sp.speaking = true ∧ nowMs - sp.lastSpeakCallTime > stuckThresholdMs)) ∧
    ((speakDispatch sp nowMs).2 = SpeakAction.speakNow ↔
      ¬ (sp.speaking = true ∧ nowMs - sp.lastSpeakCallTime > stuckThresholdMs)) ∧
    (speakDispatch sp nowMs).1.lastSpeakCallTime = nowMs := by
  by_cases h : sp.speaking = true ∧ nowMs - sp.lastSpeakCallTime > stuckThresholdMs
  · have hb : (sp.speaking && decide (nowMs - sp.lastSpeakCallTime > stuckThresholdMs))
        = true := by
      rw [Bool.and_eq_true, decide_eq_true_eq]
      exact h
    simp only [speakDispatch, hb]
    simp [h]
  · have hb : (sp.speaking && decide (nowMs - sp.lastSpeakCallTime > stuckThresholdMs))
        = false := by
      rw [← Bool.not_eq_true, Bool.and_eq_true, decide_eq_true_eq]
      exact h
    simp only [speakDispatch, hb]
    simp [h]

/-- Claim C8.  Voice preference: whenever the available voice list contains at
least one English locally-installed voice, the voice the dispatcher selects is
an English local voice — a local English voice wins over every network-backed
and every non-English voice. -/
theorem voice_selection_local_english (voices : List VoiceInfo)
    (h : ∃ v ∈ voices, isEnglish v = true ∧ v.localService = true) :
    ∃ w, bestVoice voices = some w ∧ isEnglish w = true ∧ w.localService = true := by
  unfold bestVoice
  cases h1 : voices.find? fun v => isEnglish v && v.localService && hasPreferredName v with
  | some w =>
      have hw := List.find?_some h1
      rw [Bool.and_eq_true, Bool.and_eq_true] at hw
      exact ⟨w, rfl, hw.1.1, hw.1.2⟩
  | none =>
      cases h2 : voices.find? fun v => isEnglish v && v.localService with
      | some w =>
          have hw := List.find?_some h2
          rw [Bool.and_eq_true] at hw
          exact ⟨w, rfl, hw.1, hw.2⟩
      | none =>
          exfalso
          obtain ⟨v, hv, he, hl⟩ := h
          have hnone := List.find?_eq_none.mp h2 v hv
          simp [he, hl] at hnone

/-- Witness for C8: among a non-English local voice, an English network voice
and an English local voice, an English local voice is selected. -/
theorem voice_selection_local_english_witness :
    (∃ v ∈ ([{ lang := "zh-CN", name := "Microsoft Huihui", localService := true },
             { lang := "en-US", name := "Google US English", localService := false },
             { lang := "en-US", name := "Microsoft David", localService := true }] :
        List VoiceInfo),
      isEnglish v = true ∧ v.localService = true) ∧
    (∃ w, bestVoice
        [{ lang := "zh-CN", name := "Microsoft Huihui", localService := true },
         { lang := "en-US", name := "Google US English", localService := false },
         { lang := "en-US", name := "Microsoft David", localService := true }] = some w ∧
      isEnglish w = true ∧ w.localService = true) :=
  ⟨⟨{ lang := "en-US", name := "Microsoft David", localService := true },
    by decide, by decide, rfl⟩,
   voice_selection_local_english _
     ⟨{ lang := "en-US", name := "Microsoft David", localService := true },
      by decide, by decide, rfl⟩⟩

end PrecisionTimer
